import Mathlib

/-!
Verification development for a local TCP/UDP relay that forwards client
connections to an authenticated upstream HTTP proxy, injecting a
`Proxy-Authorization` header on the client's behalf.

The embedding is shallow: byte strings from the Python source
(`proxy_server.py`, `main.py`) are modelled as `List Nat` (one byte per
element), Python `str` values as `List Char`, fallible operations as
`Option`, and the threaded server objects as explicit state machines
driven by event lists.  Each definition is translated from the source
function named in its doc comment.
-/

set_option maxRecDepth 10000

/-- The two-byte CRLF separator `b"\r\n"` (13, 10). -/
def crlf : List Nat := [13, 10]

/-- Bytes of an ASCII string literal (each char as its code point). -/
def strBytes (s : String) : List Nat := s.data.map Char.toNat

/-- ASCII lowercasing of a single byte, as Python `bytes.lower` does per byte. -/
def lowerByte (b : Nat) : Nat := if 65 ≤ b ∧ b ≤ 90 then b + 32 else b

/-- Models `line.lower().startswith(b"proxy-authorization")` from
`TCPHandler.handle_connect` / `TCPHandler.handle_http`. -/
def startsProxyAuth (line : List Nat) : Bool :=
  List.isPrefixOf (strBytes ("proxy-authorization")) (line.map lowerByte)

/-- Whether the byte list contains the two-byte sequence CRLF. -/
def containsCRLF : List Nat → Bool
  | [] => false
  | [_] => false
  | a :: b :: rest => (a == 13 && b == 10) || containsCRLF (b :: rest)

/-- The last byte of a buffer, if any. -/
def lastByte (s : List Nat) : Option Nat := s.reverse.head?

/-- Models Python `s.endswith(pat)` on bytes. -/
def pyEndsWith (s pat : List Nat) : Bool := List.isPrefixOf pat.reverse s.reverse

/-- Models Python `data.split(b"\r\n")`: split at each (leftmost,
non-overlapping) occurrence of CRLF; always returns at least one part. -/
def splitCRLF : List Nat → List (List Nat)
  | [] => [[]]
  | [b] => [[b]]
  | a :: b :: rest =>
    if a = 13 ∧ b = 10 then [] :: splitCRLF rest
    else
      match splitCRLF (b :: rest) with
      | [] => [[a]]
      | l :: ls => (a :: l) :: ls

/-- Concatenation of lines, each terminated by CRLF (a well-formed header
block in wire format). -/
def blockOf : List (List Nat) → List Nat
  | [] => []
  | l :: ls => l ++ crlf ++ blockOf ls

/-- `n` consecutive CRLF separators. -/
def crlfRep : Nat → List Nat
  | 0 => []
  | n + 1 => crlf ++ crlfRep n

/-- A well-formed request buffer: request line, CRLF, each header line
terminated by CRLF, and the final blank-line terminator. -/
def wfRequest (req : List Nat) (hs : List (List Nat)) : List Nat :=
  req ++ crlf ++ blockOf hs ++ crlf

/-- The standard base64 alphabet, as bytes. -/
def b64Table : List Nat :=
  strBytes ("ABCDEFGHIJKLMNOPQRSTUVWXYZabcdefghijklmnopqrstuvwxyz0123456789+/")

/-- One base64 output byte: index into the alphabet. -/
def b64Char (n : Nat) : Nat := b64Table.getD n 65

/-- Models `base64.b64encode` on a byte list (3-byte groups to 4 output
bytes, `=` = 61 padding). -/
def b64encode : List Nat → List Nat
  | [] => []
  | [a] => [b64Char (a / 4), b64Char (a % 4 * 16), 61, 61]
  | [a, b] => [b64Char (a / 4), b64Char (a % 4 * 16 + b / 16), b64Char (b % 16 * 4), 61]
  | a :: b :: c :: rest =>
    b64Char (a / 4) :: b64Char (a % 4 * 16 + b / 16) ::
      b64Char (b % 16 * 4 + c / 64) :: b64Char (c % 64) :: b64encode rest

/-- `ProxyConfig` from `proxy_server.py`: host, port, username, password of
the upstream proxy (Python `str` fields as `List Char`, `int` port). -/
structure ProxyConfig where
  host : List Char
  port : Int
  username : List Char
  password : List Char
  deriving DecidableEq, Repr

/-- `ProxyConfig.get_auth_header`: `"Basic " + b64(username + ":" + password)`
as bytes.  (`str.encode` is modelled on code points; all claims use ASCII
credentials, where this coincides with UTF-8.) -/
def ProxyConfig.get_auth_header (c : ProxyConfig) : List Nat :=
  strBytes ("Basic ") ++ b64encode ((c.username ++ ':' :: c.password).map Char.toNat)

/-- The full `Proxy-Authorization` header line (without its CRLF) that the
relay inserts: `"Proxy-Authorization: " + get_auth_header()`. -/
def proxyAuthLine (c : ProxyConfig) : List Nat :=
  strBytes ("Proxy-Authorization: ") ++ ProxyConfig.get_auth_header c

/-- The `auth_header` local of `handle_connect` / `handle_http`:
the inserted header line including its trailing CRLF. -/
def authHeaderOf (c : ProxyConfig) : List Nat := proxyAuthLine c ++ crlf

/-- The header loop of `TCPHandler.handle_connect` (lines 118-120): keep a
line iff it is non-empty and does not start (case-insensitively) with
`proxy-authorization`, re-terminating each kept line with CRLF. -/
def connectHeaders : List (List Nat) → List Nat
  | [] => []
  | l :: ls =>
    (if l ≠ [] ∧ startsProxyAuth l = false then l ++ crlf else []) ++ connectHeaders ls

/-- The header loop of `TCPHandler.handle_http` (lines 155-157): keep a line
(including empty ones) iff it does not start with `proxy-authorization`. -/
def httpHeaders : List (List Nat) → List Nat
  | [] => []
  | l :: ls =>
    (if startsProxyAuth l = false then l ++ crlf else []) ++ httpHeaders ls

/-- The request rewrite of `TCPHandler.handle_connect` (lines 107-123):
request line, then the auth header, then the filtered header lines, then a
final CRLF unless the result already ends with a blank line. -/
def rewriteConnect (c : ProxyConfig) (data : List Nat) : List Nat :=
  let lines := splitCRLF data
  let base := lines.headI ++ crlf ++ authHeaderOf c ++ connectHeaders lines.tail
  if pyEndsWith base (crlf ++ crlf) then base else base ++ crlf

/-- The request rewrite of `TCPHandler.handle_http` (lines 149-157):
request line, then the auth header, then the filtered header lines
(no terminator normalisation). -/
def rewriteHttp (c : ProxyConfig) (data : List Nat) : List Nat :=
  let lines := splitCRLF data
  lines.headI ++ crlf ++ authHeaderOf c ++ httpHeaders lines.tail

/-- Python `pat in s` on bytes: `pat` occurs as a contiguous substring. -/
def containsBytes (s pat : List Nat) : Bool :=
  match s with
  | [] => List.isPrefixOf pat []
  | a :: rest => List.isPrefixOf pat (a :: rest) || containsBytes rest pat

/-- Models `b"200" in response.split(b"\r\n")[0]` from `handle_connect`
(line 131): the status line contains the bytes `200`. -/
def statusHas200 (response : List Nat) : Bool :=
  containsBytes (splitCRLF response).headI (strBytes ("200"))

/-- Models `request_line.startswith("CONNECT")` from `TCPHandler.run`
(line 93).  The source decodes the request line with
`decode("utf-8", errors="ignore")` first; for ASCII request lines (the
only ones the claims quantify over) that decode is the identity, so the
check is modelled as a byte-level prefix test. -/
def isConnectRequest (line : List Nat) : Bool :=
  List.isPrefixOf (strBytes ("CONNECT")) line

/-- The distinguishable log messages of `TCPHandler` (modelled as tags; the
source interpolates addresses and exception text into them). -/
inductive TCPLog where
  | errorHandlingConnection
  | failedConnectUpstream
  | tunnelEstablished
  | connectFailed
  | httpForwarded
  deriving DecidableEq, Repr

/-- The environment a single `TCPHandler` interacts with: the result of the
initial 64 KiB client read (`none` models an I/O exception, `some []` a
zero-byte read), whether the TCP connect to the upstream proxy succeeds,
and the first response chunk the upstream sends in CONNECT mode. -/
structure TCPEnv where
  initialRead : Option (List Nat)
  connectOk : Bool
  upstreamResponse : List Nat
  deriving DecidableEq, Repr

/-- The externally visible effects of one `TCPHandler.run` up to the point
where bidirectional pumping starts (or the handler returns). -/
structure TCPEffects where
  upstreamOpened : Bool
  sentUpstream : List (List Nat)
  sentClient : List (List Nat)
  pumped : Bool
  logs : List TCPLog
  clientClosed : Bool
  upstreamClosed : Bool
  deriving DecidableEq, Repr

/-- The literal success line sent to the client when a CONNECT tunnel is
established (line 133). -/
def connectionEstablished : List Nat :=
  strBytes ("HTTP/1.1 200 Connection Established") ++ crlf ++ crlf

/-- Models `TCPHandler.run` together with `handle_connect` / `handle_http`
(lines 74-168) as a pure function from the environment to the handler's
effects: zero-byte initial read returns silently; failed upstream connect
is logged and returns; a CONNECT request is rewritten and forwarded, then
the upstream's first chunk decides between the literal 200 reply plus
tunnel and forwarding the response verbatim; any other request is
rewritten, forwarded, and pumped.  `cleanup` always closes the client
socket and closes the upstream socket iff one was opened. -/
def tcpRun (c : ProxyConfig) (env : TCPEnv) : TCPEffects :=
  match env.initialRead with
  | none =>
    { upstreamOpened := false, sentUpstream := [], sentClient := [], pumped := false,
      logs := [TCPLog.errorHandlingConnection], clientClosed := true, upstreamClosed := false }
  | some data =>
    if data = [] then
      { upstreamOpened := false, sentUpstream := [], sentClient := [], pumped := false,
        logs := [], clientClosed := true, upstreamClosed := false }
    else if env.connectOk = false then
      { upstreamOpened := false, sentUpstream := [], sentClient := [], pumped := false,
        logs := [TCPLog.failedConnectUpstream], clientClosed := true, upstreamClosed := false }
    else if isConnectRequest (splitCRLF data).headI then
      if statusHas200 env.upstreamResponse then
        { upstreamOpened := true, sentUpstream := [rewriteConnect c data],
          sentClient := [connectionEstablished], pumped := true,
          logs := [TCPLog.tunnelEstablished], clientClosed := true, upstreamClosed := true }
      else
        { upstreamOpened := true, sentUpstream := [rewriteConnect c data],
          sentClient := [env.upstreamResponse], pumped := false,
          logs := [TCPLog.connectFailed], clientClosed := true, upstreamClosed := true }
    else
      { upstreamOpened := true, sentUpstream := [rewriteHttp c data],
        sentClient := [], pumped := true,
        logs := [TCPLog.httpForwarded], clientClosed := true, upstreamClosed := true }

/-! ### The configuration parser (`main.py`, `ProxySwapApp.parse_proxy_line`) -/

/-- Python `str.strip()`: remove leading and trailing whitespace. -/
def pyStrip (s : List Char) : List Char :=
  ((s.dropWhile Char.isWhitespace).reverse.dropWhile Char.isWhitespace).reverse

/-- Python `s.split(c)` for a one-character separator: split at every
occurrence; always returns at least one part. -/
def splitChar (c : Char) : List Char → List (List Char)
  | [] => [[]]
  | x :: rest =>
    if x = c then [] :: splitChar c rest
    else
      match splitChar c rest with
      | [] => [[x]]
      | l :: ls => (x :: l) :: ls

/-- Python `":".join(parts)`. -/
def joinColon : List (List Char) → List Char
  | [] => []
  | [l] => l
  | l :: ls => l ++ ':' :: joinColon ls

/-- Digit run accepted by Python `int`, allowing single underscores strictly
between digits. -/
def pyDigitsAux (acc : Nat) : List Char → Option Nat
  | [] => some acc
  | '_' :: c :: rest =>
    if c.isDigit then pyDigitsAux (acc * 10 + (c.toNat - 48)) rest else none
  | ['_'] => none
  | c :: rest =>
    if c.isDigit then pyDigitsAux (acc * 10 + (c.toNat - 48)) rest else none

/-- Nonempty digit run (first character must be a digit). -/
def pyDigits : List Char → Option Nat
  | [] => none
  | c :: rest => if c.isDigit then pyDigitsAux (c.toNat - 48) rest else none

/-- Models Python `int(s)` on decimal strings: strip whitespace, optional
single sign, then digits (ASCII digits; `none` models `ValueError`). -/
def pyInt (s : List Char) : Option Int :=
  match pyStrip s with
  | '+' :: rest => (pyDigits rest).map Int.ofNat
  | '-' :: rest => (pyDigits rest).map (fun n => -(Int.ofNat n))
  | rest => (pyDigits rest).map Int.ofNat

/-- Models `ProxySwapApp.parse_proxy_line` (`main.py` lines 277-319): strip,
skip blank lines and `#` comments, split on `:`; with exactly 4 fields use
them directly, with more than 4 re-join everything after the third colon
as the password; reject fewer than 4 fields, a non-integer or out-of-range
port, or an empty host. -/
def parse_proxy_line (s : List Char) : Option ProxyConfig :=
  let t := pyStrip s
  if t = [] then none
  else if t.head? = some '#' then none
  else
    match splitChar ':' t with
    | [host, portStr, username, password] =>
      match pyInt portStr with
      | none => none
      | some p =>
        if 1 ≤ p ∧ p ≤ 65535 then
          if host = [] then none else some ⟨host, p, username, password⟩
        else none
    | host :: portStr :: username :: rest =>
      if 2 ≤ rest.length then
        match pyInt portStr with
        | none => none
        | some p =>
          if 1 ≤ p ∧ p ≤ 65535 then
            if host = [] then none else some ⟨host, p, username, joinColon rest⟩
          else none
      else none
    | _ => none

/-! ### The `ProxyServer` lifecycle (`proxy_server.py`, lines 319-399) -/

/-- Log tags for `ProxyServer` / `UDPHandler` lifecycle messages. -/
inductive ServerLog where
  | serverStarted
  | tcpListenerStarted
  | tcpServerError
  | tcpAcceptError
  | udpListenerStarted
  | udpHandlerError
  | udpError
  | serverStopped
  deriving DecidableEq, Repr

/-- Observable state of one `ProxyServer`: the `running` flag, the addresses
its two listening sockets were bound to (if the binds happened and
succeeded), the number of spawned per-connection handlers, and the log. -/
structure ProxyServerState where
  localHost : List Char
  localPort : Int
  running : Bool
  udpHandlerRunning : Bool
  tcpBoundAddr : Option (List Char × Int)
  udpBoundAddr : Option (List Char × Int)
  handlers : Nat
  logs : List ServerLog
  deriving DecidableEq, Repr

/-- `ProxyServer.__init__`: running is false, no sockets, no handlers. -/
def mkServer (host : List Char) (port : Int) : ProxyServerState :=
  { localHost := host, localPort := port, running := false, udpHandlerRunning := false,
    tcpBoundAddr := none, udpBoundAddr := none, handlers := 0, logs := [] }

/-- `ProxyServer.start` (lines 339-351): set `running := true`, spawn the
TCP accept-loop thread and the UDP handler (whose binds are the later
`tcpBind` / `udpBind` events), and log.  It has no failure path. -/
def ProxyServer.start (s : ProxyServerState) : ProxyServerState :=
  { s with running := true, udpHandlerRunning := true,
           logs := s.logs ++ [ServerLog.serverStarted] }

/-- Asynchronous events processed by the server's threads after `start`. -/
inductive ServerEvent where
  | tcpBind (ok : Bool)
  | tcpAccept
  | tcpAcceptTimeout
  | tcpAcceptError
  | udpBind (ok : Bool)
  | udpRecvTimeout
  | udpRecvError
  deriving DecidableEq, Repr

/-- One step of the accept-loop / UDP threads (`run_tcp_server`, lines
353-378, and `UDPHandler.run`, lines 234-258).  A successful TCP bind uses
`(local_host, local_port)`; a successful UDP bind uses `("0.0.0.0",
local_port)` (line 239).  A failed bind is caught and logged; the UDP
thread's `finally` additionally stops the UDP handler.  No event touches
the server's `running` flag. -/
def serverStep (s : ProxyServerState) (e : ServerEvent) : ProxyServerState :=
  match e with
  | ServerEvent.tcpBind ok =>
    if ok then
      { s with tcpBoundAddr := some (s.localHost, s.localPort),
               logs := s.logs ++ [ServerLog.tcpListenerStarted] }
    else { s with logs := s.logs ++ [ServerLog.tcpServerError] }
  | ServerEvent.tcpAccept => { s with handlers := s.handlers + 1 }
  | ServerEvent.tcpAcceptTimeout => s
  | ServerEvent.tcpAcceptError =>
    if s.running then { s with logs := s.logs ++ [ServerLog.tcpAcceptError] } else s
  | ServerEvent.udpBind ok =>
    if ok then
      { s with udpBoundAddr := some (("0.0.0.0").data, s.localPort),
               logs := s.logs ++ [ServerLog.udpListenerStarted] }
    else
      { s with udpHandlerRunning := false, logs := s.logs ++ [ServerLog.udpHandlerError] }
  | ServerEvent.udpRecvTimeout => s
  | ServerEvent.udpRecvError =>
    if s.running then { s with logs := s.logs ++ [ServerLog.udpError] } else s

/-- `ProxyServer.stop` (lines 380-396): clear `running`, close the sockets,
stop the UDP handler, mark handlers for shutdown, log. -/
def ProxyServer.stop (s : ProxyServerState) : ProxyServerState :=
  { s with running := false, udpHandlerRunning := false,
           logs := s.logs ++ [ServerLog.serverStopped] }

/-- `ProxyServer.is_running` (line 398): a pure read of the flag. -/
def ProxyServer.is_running (s : ProxyServerState) : Bool := s.running

/-! ### The UDP relay (`proxy_server.py`, `UDPHandler`, lines 214-316) -/

/-- A client UDP address `(host, port)`. -/
abbrev UDPAddr := List Char × Int

/-- Observable state of `UDPHandler`: the client-address-to-upstream-socket
mapping (`client_mapping`), a counter allocating fresh upstream socket
identities, the spawned responder threads (socket paired with the client
address it relays back to), and the datagrams sent upstream (socket used,
payload, destination). -/
structure UDPState where
  mapping : List (UDPAddr × Nat)
  nextSock : Nat
  responders : List (Nat × UDPAddr)
  sent : List (Nat × List Nat × (List Char × Int))
  deriving DecidableEq, Repr

/-- The initial `UDPHandler` state: empty mapping, nothing sent. -/
def initUDP : UDPState :=
  { mapping := [], nextSock := 0, responders := [], sent := [] }

/-- First-match lookup in the client mapping (Python dict access; keys are
unique because entries are only inserted when absent). -/
def findSock (a : UDPAddr) : List (UDPAddr × Nat) → Option Nat
  | [] => none
  | p :: rest => if p.1 = a then some p.2 else findSock a rest

/-- `UDPHandler.handle_udp_packet` (lines 260-290): if the client address is
unseen, allocate a fresh upstream socket, record it, and spawn a responder
thread for that client; then forward the datagram unmodified to
`(proxy.host, proxy.port)` through the client's upstream socket. -/
def handle_udp_packet (c : ProxyConfig) (s : UDPState) (addr : UDPAddr)
    (data : List Nat) : UDPState :=
  let s1 :=
    match findSock addr s.mapping with
    | some _ => s
    | none =>
      { s with mapping := s.mapping ++ [(addr, s.nextSock)],
               nextSock := s.nextSock + 1,
               responders := s.responders ++ [(s.nextSock, addr)] }
  { s1 with sent := s1.sent ++ [((findSock addr s1.mapping).getD 0, data, (c.host, c.port))] }

/-- One iteration of the `UDPHandler.run` receive loop (lines 244-253): a
received datagram is dispatched to `handle_udp_packet` only if it is
non-empty (`if data:`). -/
def udpRecvStep (c : ProxyConfig) (s : UDPState) (ev : UDPAddr × List Nat) : UDPState :=
  if ev.2 ≠ [] then handle_udp_packet c s ev.1 ev.2 else s

/-- The UDP handler driven over a whole sequence of received datagrams. -/
def runUdp (c : ProxyConfig) (events : List (UDPAddr × List Nat)) : UDPState :=
  events.foldl (udpRecvStep c) initUDP

/-! ### Concrete fixtures used by witnesses and counterexamples -/

/-- A concrete upstream credential. -/
def cfg0 : ProxyConfig :=
  { host := ("p.example").data, port := 8080, username := ("user").data,
    password := ("pass").data }

/-- A concrete CONNECT request line. -/
def req0 : List Nat := strBytes ("CONNECT example.com:443 HTTP/1.1")

/-- Concrete header lines, including a pre-existing Proxy-Authorization. -/
def hs0 : List (List Nat) :=
  [strBytes ("Host: example.com"), strBytes ("Proxy-Authorization: Basic b2xk")]

/-- A concrete plain HTTP request buffer with terminator. -/
def httpReq0 : List Nat :=
  strBytes ("GET http://e/ HTTP/1.1") ++ crlf ++ strBytes ("Host: e") ++ crlf ++ crlf

/-- A concrete UDP client address. -/
def udpAddrA : UDPAddr := (("10.0.0.9").data, 5000)

/-- A second concrete UDP client address. -/
def udpAddrB : UDPAddr := (("10.0.0.8").data, 6000)

/-- A concrete UDP datagram sequence: two datagrams from one client and one
from another. -/
def udpEvs0 : List (UDPAddr × List Nat) :=
  [(udpAddrA, [1, 2]), (udpAddrA, [3]), (udpAddrB, [4])]

/-! ## Lemmas about the CRLF line discipline -/

theorem containsCRLF_tail {a : Nat} {l : List Nat}
    (h : containsCRLF (a :: l) = false) : containsCRLF l = false := by
  cases l with
  | nil => rfl
  | cons b rest =>
    simp only [containsCRLF, Bool.or_eq_false_iff] at h
    exact h.2

theorem containsCRLF_of_sep (a b : List Nat) :
    containsCRLF (a ++ 13 :: 10 :: b) = true := by
  induction a with
  | nil => simp [containsCRLF]
  | cons x xs ih =>
    cases xs with
    | nil => simp [containsCRLF]
    | cons y ys => simp [containsCRLF, List.cons_append] at ih ⊢; simp [ih]

theorem splitCRLF_ne_nil (l : List Nat) : splitCRLF l ≠ [] := by
  match l with
  | [] => simp [splitCRLF]
  | [b] => simp [splitCRLF]
  | a :: b :: rest =>
    by_cases h : a = 13 ∧ b = 10
    · simp [splitCRLF, h]
    · simp only [splitCRLF, if_neg h]
      cases hs : splitCRLF (b :: rest) with
      | nil => simp
      | cons l ls => simp

theorem splitCRLF_append {a : List Nat} (rest : List Nat)
    (ha : containsCRLF a = false) :
    splitCRLF (a ++ 13 :: 10 :: rest) = a :: splitCRLF rest := by
  induction a with
  | nil => simp [splitCRLF]
  | cons x xs ih =>
    cases xs with
    | nil =>
      have hx : ¬ (x = 13 ∧ 13 = 10) := by rintro ⟨-, h⟩; exact absurd h (by decide)
      simp [splitCRLF, hx]
    | cons y ys =>
      have hxy : ¬ (x = 13 ∧ y = 10) := by
        rintro ⟨hx, hy⟩
        subst hx; subst hy
        simp [containsCRLF] at ha
      have htl : containsCRLF (y :: ys) = false := containsCRLF_tail ha
      have ih2 := ih htl
      simp only [List.cons_append] at ih2 ⊢
      simp only [splitCRLF, if_neg hxy, List.append_eq]
      rw [ih2]

theorem splitCRLF_crlfRep (m : Nat) :
    splitCRLF (crlfRep (m + 1)) = List.replicate (m + 2) ([] : List Nat) := by
  induction m with
  | zero => decide
  | succ k ih =>
    have : crlfRep (k + 2) = [] ++ 13 :: 10 :: crlfRep (k + 1) := by
      simp [crlfRep, crlf]
    rw [this, splitCRLF_append _ (by rfl), ih]
    rfl

theorem splitCRLF_block (ls : List (List Nat)) (m : Nat)
    (h : ∀ l ∈ ls, containsCRLF l = false) :
    splitCRLF (blockOf ls ++ crlfRep (m + 1)) =
      ls ++ List.replicate (m + 2) ([] : List Nat) := by
  induction ls with
  | nil => simpa [blockOf] using splitCRLF_crlfRep m
  | cons l ls ih =>
    have hl : containsCRLF l = false := h l (by simp)
    have hrest : ∀ x ∈ ls, containsCRLF x = false := fun x hx => h x (by simp [hx])
    have : blockOf (l :: ls) ++ crlfRep (m + 1) =
        l ++ 13 :: 10 :: (blockOf ls ++ crlfRep (m + 1)) := by
      simp [blockOf, crlf]
    rw [this, splitCRLF_append _ hl, ih hrest]
    rfl

theorem splitCRLF_wf (req : List Nat) (hs : List (List Nat)) (m : Nat)
    (hreq : containsCRLF req = false)
    (h : ∀ l ∈ hs, containsCRLF l = false) :
    splitCRLF (req ++ crlf ++ blockOf hs ++ crlfRep (m + 1)) =
      req :: (hs ++ List.replicate (m + 2) ([] : List Nat)) := by
  have : req ++ crlf ++ blockOf hs ++ crlfRep (m + 1) =
      req ++ 13 :: 10 :: (blockOf hs ++ crlfRep (m + 1)) := by
    simp [crlf]
  rw [this, splitCRLF_append _ hreq, splitCRLF_block hs m h]

/-! ## Lemmas about the header loops -/

theorem connectHeaders_append (a b : List (List Nat)) :
    connectHeaders (a ++ b) = connectHeaders a ++ connectHeaders b := by
  induction a with
  | nil => simp [connectHeaders]
  | cons l ls ih => simp [connectHeaders, ih, List.append_assoc]

theorem httpHeaders_append (a b : List (List Nat)) :
    httpHeaders (a ++ b) = httpHeaders a ++ httpHeaders b := by
  induction a with
  | nil => simp [httpHeaders]
  | cons l ls ih => simp [httpHeaders, ih, List.append_assoc]

theorem connectHeaders_replicate (k : Nat) :
    connectHeaders (List.replicate k ([] : List Nat)) = [] := by
  induction k with
  | zero => rfl
  | succ n ih => simp [List.replicate_succ, connectHeaders, ih]

theorem startsProxyAuth_nil : startsProxyAuth [] = false := by decide

theorem httpHeaders_replicate (k : Nat) :
    httpHeaders (List.replicate k ([] : List Nat)) = crlfRep k := by
  induction k with
  | zero => rfl
  | succ n ih => simp [List.replicate_succ, httpHeaders, startsProxyAuth_nil, ih, crlfRep]

theorem blockOf_append (a b : List (List Nat)) :
    blockOf (a ++ b) = blockOf a ++ blockOf b := by
  induction a with
  | nil => simp [blockOf]
  | cons l ls ih => simp [blockOf, ih, List.append_assoc]

theorem connectHeaders_filter (hs : List (List Nat)) (hne : ∀ l ∈ hs, l ≠ []) :
    connectHeaders hs = blockOf (hs.filter (fun l => !(startsProxyAuth l))) := by
  induction hs with
  | nil => rfl
  | cons l ls ih =>
    have hl : l ≠ [] := hne l (by simp)
    have ihr := ih (fun x hx => hne x (by simp [hx]))
    by_cases hpa : startsProxyAuth l = true
    · simp [connectHeaders, hpa, List.filter_cons, ihr]
    · have hpa2 : startsProxyAuth l = false := by
        cases h : startsProxyAuth l
        · rfl
        · exact absurd h hpa
      simp [connectHeaders, hpa2, hl, List.filter_cons, ihr, blockOf, List.append_assoc]

theorem httpHeaders_filter (hs : List (List Nat)) :
    httpHeaders hs = blockOf (hs.filter (fun l => !(startsProxyAuth l))) := by
  induction hs with
  | nil => rfl
  | cons l ls ih =>
    by_cases hpa : startsProxyAuth l = true
    · simp [httpHeaders, hpa, List.filter_cons, ih]
    · have hpa2 : startsProxyAuth l = false := by
        cases h : startsProxyAuth l
        · rfl
        · exact absurd h hpa
      simp [httpHeaders, hpa2, List.filter_cons, ih, blockOf, List.append_assoc]

/-! ## Lemmas about the blank-line terminator check -/

theorem lastByte_append_crlf (s : List Nat) : lastByte (s ++ crlf) = some 10 := by
  simp [lastByte, crlf, List.reverse_append]

theorem pyEndsWith_line_false (s l : List Nat) (hne : l ≠ [])
    (hcr : containsCRLF l = false) (hlast : lastByte s ≠ some 13) :
    pyEndsWith (s ++ l ++ crlf) (crlf ++ crlf) = false := by
  unfold pyEndsWith
  have hrev : (s ++ l ++ crlf).reverse = 10 :: 13 :: (l.reverse ++ s.reverse) := by
    simp [crlf, List.reverse_append]
  have hpat : (crlf ++ crlf).reverse = [10, 13, 10, 13] := by decide
  rw [hrev, hpat]
  cases hl : l.reverse with
  | nil => exact absurd (by simpa using congrArg List.reverse hl) hne
  | cons a m =>
    by_cases hax : a = 10
    · subst hax
      cases m with
      | nil =>
        cases hsr : s.reverse with
        | nil => simp [List.isPrefixOf]
        | cons c t =>
          have hc : ¬ (13 = c) := by
            intro hc13
            exact hlast (by simp [lastByte, hsr, ← hc13])
          simp [List.isPrefixOf, hsr, hc]
      | cons c m2 =>
        have hc : ¬ (13 = c) := by
          intro hc13
          rw [← hc13] at hl
          have hlform : l = m2.reverse ++ 13 :: 10 :: [] := by
            have := congrArg List.reverse hl
            simpa [List.reverse_cons, List.append_assoc] using this
          rw [hlform, containsCRLF_of_sep] at hcr
          exact absurd hcr (by simp)
        simp [List.isPrefixOf, hc]
    · simp [List.isPrefixOf, Ne.symm hax]

theorem pyEndsWith_block_false (ls : List (List Nat)) :
    ∀ s : List Nat, ls ≠ [] →
    (∀ l ∈ ls, l ≠ [] ∧ containsCRLF l = false) → lastByte s ≠ some 13 →
    pyEndsWith (s ++ blockOf ls) (crlf ++ crlf) = false := by
  induction ls with
  | nil => intro s hne _ _; exact absurd rfl hne
  | cons l ls ih =>
    intro s _ h hlast
    cases ls with
    | nil =>
      have heq : s ++ blockOf [l] = s ++ l ++ crlf := by
        simp [blockOf, List.append_assoc]
      rw [heq]
      exact pyEndsWith_line_false s l (h l (by simp)).1 (h l (by simp)).2 hlast
    | cons l2 ls2 =>
      have heq : s ++ blockOf (l :: l2 :: ls2) = (s ++ l ++ crlf) ++ blockOf (l2 :: ls2) := by
        simp [blockOf, List.append_assoc]
      rw [heq]
      refine ih (s ++ l ++ crlf) (by simp) (fun x hx => h x (List.mem_cons_of_mem l hx)) ?_
      rw [show s ++ l ++ crlf = (s ++ l) ++ crlf from by simp [List.append_assoc],
        lastByte_append_crlf]
      simp

/-! ## The inserted authorization line is a clean, nonempty header line -/

theorem getD_mem_or_default (l : List Nat) (n d : Nat) : l.getD n d ∈ l ∨ l.getD n d = d := by
  induction l generalizing n with
  | nil => right; simp [List.getD]
  | cons x xs ih =>
    cases n with
    | zero => left; simp [List.getD]
    | succ k =>
      rcases ih k with hm | hd
      · left; simp [List.getD] at hm ⊢; right; exact hm
      · right; simp [List.getD] at hd ⊢; exact hd

theorem b64Char_clean (n : Nat) : b64Char n ≠ 13 ∧ b64Char n ≠ 10 := by
  have htab : ∀ x ∈ b64Table, x ≠ 13 ∧ x ≠ 10 := by decide
  unfold b64Char
  rcases getD_mem_or_default b64Table n 65 with hm | hd
  · exact htab _ hm
  · rw [hd]; exact ⟨by decide, by decide⟩

theorem b64encode_clean : ∀ (bs : List Nat), ∀ x ∈ b64encode bs, x ≠ 13 ∧ x ≠ 10
  | [] => by simp [b64encode]
  | [a] => by
    intro x hx
    simp [b64encode] at hx
    rcases hx with rfl | rfl | rfl
    · exact b64Char_clean _
    · exact b64Char_clean _
    · exact ⟨by decide, by decide⟩
  | [a, b] => by
    intro x hx
    simp [b64encode] at hx
    rcases hx with rfl | rfl | rfl | rfl
    · exact b64Char_clean _
    · exact b64Char_clean _
    · exact b64Char_clean _
    · exact ⟨by decide, by decide⟩
  | a :: b :: c :: rest => by
    intro x hx
    simp only [b64encode, List.mem_cons] at hx
    rcases hx with rfl | rfl | rfl | rfl | hmem
    · exact b64Char_clean _
    · exact b64Char_clean _
    · exact b64Char_clean _
    · exact b64Char_clean _
    · exact b64encode_clean rest x hmem

theorem containsCRLF_of_clean (b : List Nat) (h : ∀ x ∈ b, x ≠ 13) :
    containsCRLF b = false := by
  induction b with
  | nil => rfl
  | cons x xs ih =>
    cases xs with
    | nil => rfl
    | cons y ys =>
      have hx : x ≠ 13 := h x (by simp)
      have ihr := ih (fun z hz => h z (by simp at hz ⊢; tauto))
      simp [containsCRLF, hx, ihr]

theorem containsCRLF_append_clean (a b : List Nat) (ha : containsCRLF a = false)
    (hb : ∀ x ∈ b, x ≠ 13 ∧ x ≠ 10) : containsCRLF (a ++ b) = false := by
  induction a with
  | nil => exact containsCRLF_of_clean b (fun x hx => (hb x hx).1)
  | cons x xs ih =>
    cases xs with
    | nil =>
      cases b with
      | nil => rfl
      | cons y ys =>
        have hy : y ≠ 10 := (hb y (by simp)).2
        have hrest : containsCRLF (y :: ys) = false :=
          containsCRLF_of_clean _ (fun z hz => (hb z hz).1)
        simp [containsCRLF, hy, hrest]
    | cons y ys =>
      simp only [containsCRLF, Bool.or_eq_false_iff] at ha
      have ihr := ih ha.2
      simp only [List.cons_append] at ihr ⊢
      simp [containsCRLF, ha.1, ihr]

theorem get_auth_header_clean (c : ProxyConfig) :
    ∀ x ∈ ProxyConfig.get_auth_header c, x ≠ 13 ∧ x ≠ 10 := by
  intro x hx
  unfold ProxyConfig.get_auth_header at hx
  rw [List.mem_append] at hx
  rcases hx with h | h
  · exact (by decide : ∀ x ∈ strBytes ("Basic "), x ≠ 13 ∧ x ≠ 10) x h
  · exact b64encode_clean _ x h

theorem proxyAuthLine_noCRLF (c : ProxyConfig) :
    containsCRLF (proxyAuthLine c) = false := by
  unfold proxyAuthLine
  exact containsCRLF_append_clean _ _ (by decide) (get_auth_header_clean c)

theorem proxyAuthLine_ne_nil (c : ProxyConfig) : proxyAuthLine c ≠ [] := by
  simp [proxyAuthLine, strBytes]

theorem isPrefixOf_append_ext (p a b : List Nat) (h : List.isPrefixOf p a = true) :
    List.isPrefixOf p (a ++ b) = true := by
  induction p generalizing a with
  | nil => simp [List.isPrefixOf]
  | cons x p ih =>
    cases a with
    | nil => simp [List.isPrefixOf] at h
    | cons y a2 =>
      simp only [List.isPrefixOf, List.cons_append, Bool.and_eq_true, beq_iff_eq] at h ⊢
      exact ⟨h.1, ih a2 h.2⟩

theorem startsProxyAuth_authLine (c : ProxyConfig) :
    startsProxyAuth (proxyAuthLine c) = true := by
  unfold startsProxyAuth proxyAuthLine
  rw [List.map_append]
  have h1 : (strBytes ("Proxy-Authorization: ")).map lowerByte =
      strBytes ("proxy-authorization: ") := by decide
  rw [h1]
  exact isPrefixOf_append_ext _ _ _ (by decide)

/-! ## The exact shape of the two rewrites on well-formed requests -/

theorem crlf_crlfRep_comm (n : Nat) : crlf ++ crlfRep n = crlfRep n ++ crlf := by
  induction n with
  | zero => simp [crlfRep]
  | succ k ih =>
    show crlf ++ (crlf ++ crlfRep k) = (crlf ++ crlfRep k) ++ crlf
    rw [List.append_assoc, ih]

theorem crlfRep_succ_concat (n : Nat) : crlfRep (n + 1) = crlfRep n ++ crlf := by
  show crlf ++ crlfRep n = crlfRep n ++ crlf
  exact crlf_crlfRep_comm n

theorem rewriteConnect_shape (c : ProxyConfig) (req : List Nat) (hs : List (List Nat)) (m : Nat)
    (hreq : containsCRLF req = false)
    (hhs : ∀ l ∈ hs, l ≠ [] ∧ containsCRLF l = false) :
    rewriteConnect c (req ++ crlf ++ blockOf hs ++ crlfRep (m + 1)) =
      req ++ crlf ++
        blockOf (proxyAuthLine c :: hs.filter (fun l => !(startsProxyAuth l))) ++ crlf := by
  have hcr : ∀ l ∈ hs, containsCRLF l = false := fun l hl => (hhs l hl).2
  have hne : ∀ l ∈ hs, l ≠ [] := fun l hl => (hhs l hl).1
  have hsplit := splitCRLF_wf req hs m hreq hcr
  simp only [rewriteConnect]
  rw [hsplit]
  simp only [List.headI, List.tail_cons]
  rw [connectHeaders_append, connectHeaders_replicate, connectHeaders_filter hs hne,
    List.append_nil]
  have hbase :
      req ++ crlf ++ authHeaderOf c ++
          blockOf (hs.filter (fun l => !(startsProxyAuth l))) =
        (req ++ crlf) ++
          blockOf (proxyAuthLine c :: hs.filter (fun l => !(startsProxyAuth l))) := by
    simp [authHeaderOf, blockOf, List.append_assoc]
  rw [hbase]
  have hends :
      pyEndsWith
        ((req ++ crlf) ++
          blockOf (proxyAuthLine c :: hs.filter (fun l => !(startsProxyAuth l))))
        (crlf ++ crlf) = false := by
    apply pyEndsWith_block_false
    · simp
    · intro l hl
      rcases List.mem_cons.mp hl with rfl | hl2
      · exact ⟨proxyAuthLine_ne_nil c, proxyAuthLine_noCRLF c⟩
      · exact hhs l (List.mem_of_mem_filter hl2)
    · rw [lastByte_append_crlf]; simp
  rw [hends]
  simp [List.append_assoc]

theorem rewriteHttp_shape (c : ProxyConfig) (req : List Nat) (hs : List (List Nat)) (m : Nat)
    (hreq : containsCRLF req = false)
    (hcr : ∀ l ∈ hs, containsCRLF l = false) :
    rewriteHttp c (req ++ crlf ++ blockOf hs ++ crlfRep (m + 1)) =
      req ++ crlf ++
        blockOf (proxyAuthLine c :: hs.filter (fun l => !(startsProxyAuth l))) ++
        crlfRep (m + 2) := by
  have hsplit := splitCRLF_wf req hs m hreq hcr
  simp only [rewriteHttp]
  rw [hsplit]
  simp only [List.headI, List.tail_cons]
  rw [httpHeaders_append, httpHeaders_replicate, httpHeaders_filter hs]
  simp [authHeaderOf, blockOf, List.append_assoc]

/-! ## Claim C1 -/

/-- C1: for every client request (CONNECT or plain HTTP) built from a
CRLF-free request line, arbitrary nonempty CRLF-free extra header lines
(including, possibly, a pre-existing Proxy-Authorization header), and the
blank-line terminator, the rewritten request sent upstream splits into
exactly: the request line, then exactly one Proxy-Authorization line whose
value is the credential's auth-header value, then every non-authorization
header line in original order and content, then the blank-line terminator
(the plain-HTTP rewrite additionally appends one extra blank line after
the terminator, which does not remove or reorder any header). -/
theorem c1_rewrite_exactly_one_auth (c : ProxyConfig) (req : List Nat)
    (hs : List (List Nat)) (hreq : containsCRLF req = false)
    (hhs : ∀ l ∈ hs, l ≠ [] ∧ containsCRLF l = false) :
    splitCRLF (rewriteConnect c (wfRequest req hs)) =
      req :: proxyAuthLine c ::
        (hs.filter (fun l => !(startsProxyAuth l)) ++ [[], []]) ∧
    splitCRLF (rewriteHttp c (wfRequest req hs)) =
      req :: proxyAuthLine c ::
        (hs.filter (fun l => !(startsProxyAuth l)) ++ [[], [], []]) ∧
    ∀ l ∈ hs.filter (fun l => !(startsProxyAuth l)), startsProxyAuth l = false := by
  have hcr : ∀ l ∈ hs, containsCRLF l = false := fun l hl => (hhs l hl).2
  have hclean : ∀ l ∈ proxyAuthLine c :: hs.filter (fun l => !(startsProxyAuth l)),
      containsCRLF l = false := by
    intro l hl
    rcases List.mem_cons.mp hl with rfl | hl2
    · exact proxyAuthLine_noCRLF c
    · exact hcr l (List.mem_of_mem_filter hl2)
  have hwf : wfRequest req hs = req ++ crlf ++ blockOf hs ++ crlfRep (0 + 1) := by
    simp [wfRequest, crlfRep]
  refine ⟨?_, ?_, ?_⟩
  · rw [hwf, rewriteConnect_shape c req hs 0 hreq hhs]
    have h2 := splitCRLF_wf req
      (proxyAuthLine c :: hs.filter (fun l => !(startsProxyAuth l))) 0 hreq hclean
    simp only [crlfRep, List.append_nil, Nat.zero_add] at h2
    rw [h2]
    simp [List.cons_append, show List.replicate 2 ([] : List Nat) = [[], []] from rfl]
  · rw [hwf, rewriteHttp_shape c req hs 0 hreq hcr]
    have h3 := splitCRLF_wf req
      (proxyAuthLine c :: hs.filter (fun l => !(startsProxyAuth l))) 1 hreq hclean
    norm_num at h3 ⊢
    rw [h3]
    simp [List.cons_append, show List.replicate 3 ([] : List Nat) = [[], [], []] from rfl]
  · intro l hl
    have := List.of_mem_filter hl
    simpa using this

/-- C1 witness: the theorem applied to a concrete CONNECT request carrying
a stale Proxy-Authorization header. -/
theorem c1_witness :
    (∀ l ∈ hs0, l ≠ [] ∧ containsCRLF l = false) ∧
    splitCRLF (rewriteConnect cfg0 (wfRequest req0 hs0)) =
      req0 :: proxyAuthLine cfg0 ::
        (hs0.filter (fun l => !(startsProxyAuth l)) ++ [[], []]) :=
  ⟨by decide, (c1_rewrite_exactly_one_auth cfg0 req0 hs0 (by decide) (by decide)).1⟩

/-! ## Claim C4 -/

/-- C4 counterexample: rewriting an already-rewritten plain HTTP request a
second time does not reproduce the same bytes (each pass appends one extra
CRLF), so the rewrite is not idempotent in both modes. -/
theorem c4_counterexample :
    rewriteHttp cfg0 (rewriteHttp cfg0 httpReq0) ≠ rewriteHttp cfg0 httpReq0 := by
  decide

/-- C4 amended: on well-formed requests the CONNECT-mode rewrite is
idempotent, but the plain-HTTP-mode rewrite is not: re-applying it yields
the once-rewritten request with one extra CRLF appended. -/
theorem c4_amended_idempotence (c : ProxyConfig) (req : List Nat)
    (hs : List (List Nat)) (hreq : containsCRLF req = false)
    (hhs : ∀ l ∈ hs, l ≠ [] ∧ containsCRLF l = false) :
    rewriteConnect c (rewriteConnect c (wfRequest req hs)) =
      rewriteConnect c (wfRequest req hs) ∧
    rewriteHttp c (rewriteHttp c (wfRequest req hs)) =
      rewriteHttp c (wfRequest req hs) ++ crlf := by
  have hcr : ∀ l ∈ hs, containsCRLF l = false := fun l hl => (hhs l hl).2
  have hkept : ∀ l ∈ proxyAuthLine c :: hs.filter (fun l => !(startsProxyAuth l)),
      l ≠ [] ∧ containsCRLF l = false := by
    intro l hl
    rcases List.mem_cons.mp hl with rfl | hl2
    · exact ⟨proxyAuthLine_ne_nil c, proxyAuthLine_noCRLF c⟩
    · exact hhs l (List.mem_of_mem_filter hl2)
  have hkeptcr : ∀ l ∈ proxyAuthLine c :: hs.filter (fun l => !(startsProxyAuth l)),
      containsCRLF l = false := fun l hl => (hkept l hl).2
  have hfilter : (proxyAuthLine c :: hs.filter (fun l => !(startsProxyAuth l))).filter
      (fun l => !(startsProxyAuth l)) = hs.filter (fun l => !(startsProxyAuth l)) := by
    simp [List.filter_cons, startsProxyAuth_authLine c, List.filter_filter, Bool.and_self]
  have hwf : wfRequest req hs = req ++ crlf ++ blockOf hs ++ crlfRep (0 + 1) := by
    simp [wfRequest, crlfRep]
  constructor
  · rw [hwf, rewriteConnect_shape c req hs 0 hreq hhs]
    have hcv : req ++ crlf ++
        blockOf (proxyAuthLine c :: hs.filter (fun l => !(startsProxyAuth l))) ++ crlf =
        req ++ crlf ++
        blockOf (proxyAuthLine c :: hs.filter (fun l => !(startsProxyAuth l))) ++
        crlfRep (0 + 1) := by
      simp [crlfRep]
    rw [hcv, rewriteConnect_shape c req _ 0 hreq hkept, hfilter]
    simp [crlfRep]
  · rw [hwf, rewriteHttp_shape c req hs 0 hreq hcr]
    have h2 := rewriteHttp_shape c req
      (proxyAuthLine c :: hs.filter (fun l => !(startsProxyAuth l))) 1 hreq hkeptcr
    norm_num at h2 ⊢
    rw [h2, hfilter]
    have h3 : crlfRep 3 = crlfRep 2 ++ crlf := crlfRep_succ_concat 2
    rw [h3]

/-- C4 witness: the amended theorem applied to a concrete CONNECT request. -/
theorem c4_witness :
    (∀ l ∈ hs0, l ≠ [] ∧ containsCRLF l = false) ∧
    rewriteConnect cfg0 (rewriteConnect cfg0 (wfRequest req0 hs0)) =
      rewriteConnect cfg0 (wfRequest req0 hs0) :=
  ⟨by decide, (c4_amended_idempotence cfg0 req0 hs0 (by decide) (by decide)).1⟩

/-! ## Claims C2, C3, C9 -/

/-- C2: for every upstream response to a CONNECT request whose status line
contains 200, the client receives exactly the literal
`HTTP/1.1 200 Connection Established` plus blank line — not the upstream's
raw response bytes — and only then does bidirectional tunneling begin. -/
theorem c2_connect_200_literal (c : ProxyConfig) (env : TCPEnv) (data : List Nat)
    (hread : env.initialRead = some data) (hne : data ≠ [])
    (hconn : env.connectOk = true)
    (hreq : isConnectRequest (splitCRLF data).headI = true)
    (h200 : statusHas200 env.upstreamResponse = true) :
    (tcpRun c env).sentClient = [connectionEstablished] ∧
    (tcpRun c env).pumped = true := by
  unfold tcpRun
  rw [hread]
  simp [hne, hconn, hreq, h200]

/-- C2 witness: a concrete CONNECT exchange against a 200 upstream. -/
theorem c2_witness :
    statusHas200 (strBytes ("HTTP/1.1 200 Connection Established") ++ crlf ++ crlf) = true ∧
    (tcpRun cfg0
        { initialRead := some (wfRequest req0 hs0), connectOk := true,
          upstreamResponse :=
            strBytes ("HTTP/1.1 200 Connection Established") ++ crlf ++ crlf }).sentClient =
      [connectionEstablished] :=
  ⟨by decide,
    (c2_connect_200_literal cfg0
      { initialRead := some (wfRequest req0 hs0), connectOk := true,
        upstreamResponse :=
          strBytes ("HTTP/1.1 200 Connection Established") ++ crlf ++ crlf }
      (wfRequest req0 hs0) rfl (by decide) rfl (by decide) (by decide)).1⟩

/-- C3: for every upstream response to a CONNECT request whose status line
does not contain 200, the client receives the upstream's response bytes
verbatim and the relay terminates without entering the tunnel phase. -/
theorem c3_connect_non200_verbatim (c : ProxyConfig) (env : TCPEnv) (data : List Nat)
    (hread : env.initialRead = some data) (hne : data ≠ [])
    (hconn : env.connectOk = true)
    (hreq : isConnectRequest (splitCRLF data).headI = true)
    (hnot : statusHas200 env.upstreamResponse = false) :
    (tcpRun c env).sentClient = [env.upstreamResponse] ∧
    (tcpRun c env).pumped = false ∧
    (tcpRun c env).clientClosed = true ∧ (tcpRun c env).upstreamClosed = true := by
  unfold tcpRun
  rw [hread]
  simp [hne, hconn, hreq, hnot]

/-- C3 witness: a concrete CONNECT exchange against a 407 upstream. -/
theorem c3_witness :
    statusHas200
        (strBytes ("HTTP/1.1 407 Proxy Authentication Required") ++ crlf ++ crlf) = false ∧
    (tcpRun cfg0
        { initialRead := some (wfRequest req0 hs0), connectOk := true,
          upstreamResponse :=
            strBytes ("HTTP/1.1 407 Proxy Authentication Required") ++ crlf ++ crlf
              }).sentClient =
      [strBytes ("HTTP/1.1 407 Proxy Authentication Required") ++ crlf ++ crlf] :=
  ⟨by decide,
    (c3_connect_non200_verbatim cfg0
      { initialRead := some (wfRequest req0 hs0), connectOk := true,
        upstreamResponse :=
          strBytes ("HTTP/1.1 407 Proxy Authentication Required") ++ crlf ++ crlf }
      (wfRequest req0 hs0) rfl (by decide) rfl (by decide) (by decide)).1⟩

/-- C9: if the initial read from the accepted client socket returns zero
bytes, the relay terminates with no upstream connection opened, nothing
sent in either direction, nothing logged, no tunnel, and only the client
socket closed. -/
theorem c9_empty_read_noop (c : ProxyConfig) (env : TCPEnv)
    (h : env.initialRead = some []) :
    tcpRun c env =
      { upstreamOpened := false, sentUpstream := [], sentClient := [], pumped := false,
        logs := [], clientClosed := true, upstreamClosed := false } := by
  unfold tcpRun
  rw [h]
  simp

/-- C9 witness: the theorem at a concrete environment. -/
theorem c9_witness :
    (TCPEnv.initialRead
        { initialRead := some [], connectOk := true, upstreamResponse := [] } = some []) ∧
    tcpRun cfg0 { initialRead := some [], connectOk := true, upstreamResponse := [] } =
      { upstreamOpened := false, sentUpstream := [], sentClient := [], pumped := false,
        logs := [], clientClosed := true, upstreamClosed := false } :=
  ⟨rfl, c9_empty_read_noop cfg0
    { initialRead := some [], connectOk := true, upstreamResponse := [] } rfl⟩

/-! ## Claim C7 -/

theorem splitChar_ne_nil (c : Char) (l : List Char) : splitChar c l ≠ [] := by
  match l with
  | [] => simp [splitChar]
  | x :: rest =>
    by_cases h : x = c
    · simp [splitChar, h]
    · simp only [splitChar, if_neg h]
      cases hs : splitChar c rest with
      | nil => simp
      | cons a as => simp

theorem splitChar_append (c : Char) (a rest : List Char) (ha : c ∉ a) :
    splitChar c (a ++ c :: rest) = a :: splitChar c rest := by
  induction a with
  | nil => simp [splitChar]
  | cons x xs ih =>
    have hx : ¬ (x = c) := fun h => ha (by simp [h])
    have ih2 := ih (fun h => ha (List.mem_cons_of_mem x h))
    simp only [List.cons_append, splitChar, if_neg hx, List.append_eq]
    rw [ih2]

theorem joinColon_splitChar (l : List Char) : joinColon (splitChar ':' l) = l := by
  induction l with
  | nil => rfl
  | cons x rest ih =>
    cases hsp : splitChar ':' rest with
    | nil => exact absurd hsp (splitChar_ne_nil ':' rest)
    | cons s1 srest =>
      rw [hsp] at ih
      by_cases hx : x = ':'
      · subst hx
        simp only [splitChar, if_pos rfl, hsp]
        cases srest with
        | nil =>
          simp only [joinColon] at ih ⊢
          rw [ih]
          rfl
        | cons s2 ss =>
          simp only [joinColon] at ih ⊢
          rw [ih]
          rfl
      · simp only [splitChar, if_neg hx, hsp]
        cases srest with
        | nil =>
          simp only [joinColon] at ih ⊢
          rw [ih]
        | cons s2 ss =>
          simp only [joinColon] at ih ⊢
          simp [List.cons_append, ih]

/-- C7: every valid configuration line `host:port:user:pass` — host nonempty,
not a comment, host/port/user colon-free, no surrounding whitespace, port a
decimal in range — parses to exactly the original four fields; a password
containing `:` is everything after the third colon. -/
theorem c7_parse_roundtrip (host portStr user pass : List Char) (p : Int)
    (hhost : host ≠ []) (hhash : host.head? ≠ some '#')
    (hc1 : ':' ∉ host) (hc2 : ':' ∉ portStr) (hc3 : ':' ∉ user)
    (htrim : pyStrip (host ++ ':' :: (portStr ++ ':' :: (user ++ ':' :: pass))) =
      host ++ ':' :: (portStr ++ ':' :: (user ++ ':' :: pass)))
    (hport : pyInt portStr = some p) (hlo : 1 ≤ p) (hhi : p ≤ 65535) :
    parse_proxy_line (host ++ ':' :: (portStr ++ ':' :: (user ++ ':' :: pass))) =
      some ⟨host, p, user, pass⟩ := by
  obtain ⟨h0, htl, rfl⟩ : ∃ h0 htl, host = h0 :: htl := by
    cases host with
    | nil => exact absurd rfl hhost
    | cons a as => exact ⟨a, as, rfl⟩
  unfold parse_proxy_line
  rw [htrim]
  have hnn : (h0 :: htl) ++ ':' :: (portStr ++ ':' :: (user ++ ':' :: pass)) ≠ [] := by
    simp
  rw [if_neg hnn]
  have hh : ((h0 :: htl) ++ ':' :: (portStr ++ ':' :: (user ++ ':' :: pass))).head? =
      some h0 := by simp
  rw [hh, if_neg (by simpa using hhash)]
  rw [splitChar_append ':' _ _ hc1, splitChar_append ':' _ _ hc2,
    splitChar_append ':' _ _ hc3]
  cases hps : splitChar ':' pass with
  | nil => exact absurd hps (splitChar_ne_nil ':' pass)
  | cons p1 prest =>
    have hjoin : joinColon (p1 :: prest) = pass := by
      have := joinColon_splitChar pass
      rw [hps] at this
      exact this
    cases prest with
    | nil =>
      have hp1 : p1 = pass := by simpa [joinColon] using hjoin
      subst hp1
      simp [hport, hlo, hhi]
    | cons p2 pr2 =>
      simp [hport, hlo, hhi, hjoin]

/-- C7 witness: a concrete line whose password contains a colon. -/
theorem c7_witness :
    pyInt (("8080").data) = some 8080 ∧
    parse_proxy_line (("10.0.0.1:8080:alice:pa:ss").data) =
      some { host := ("10.0.0.1").data, port := 8080, username := ("alice").data,
             password := ("pa:ss").data } := by
  constructor
  · decide
  · have heq : (("10.0.0.1:8080:alice:pa:ss").data : List Char) =
        ("10.0.0.1").data ++ ':' :: (("8080").data ++ ':' ::
          (("alice").data ++ ':' :: ("pa:ss").data)) := by decide
    rw [heq]
    exact c7_parse_roundtrip (("10.0.0.1").data) (("8080").data) (("alice").data)
      (("pa:ss").data) 8080 (by decide) (by decide) (by decide) (by decide) (by decide)
      (by decide) (by decide) (by decide) (by decide)

/-! ## Claims C5, C6, C10 -/

theorem serverStep_preserves_running (s : ProxyServerState) (e : ServerEvent) :
    (serverStep s e).running = s.running := by
  cases e <;> simp only [serverStep] <;> split <;> rfl

theorem foldl_serverStep_preserves_running (evs : List ServerEvent) :
    ∀ s : ProxyServerState, (evs.foldl serverStep s).running = s.running := by
  induction evs with
  | nil => intro s; rfl
  | cons e es ih =>
    intro s
    rw [List.foldl_cons, ih, serverStep_preserves_running]

/-- C5 counterexample: when the TCP bind fails, `start()` has already
completed normally; the server still reports `is_running() = true` and the
failure surfaces only as a log entry appended by the accept-loop thread,
not as a failure of `start()`. -/
theorem c5_counterexample :
    ProxyServer.is_running
        (serverStep (ProxyServer.start (mkServer (("127.0.0.1").data) 8080))
          (ServerEvent.tcpBind false)) = true ∧
    (serverStep (ProxyServer.start (mkServer (("127.0.0.1").data) 8080))
        (ServerEvent.tcpBind false)).logs =
      [ServerLog.serverStarted, ServerLog.tcpServerError] := by
  exact ⟨rfl, rfl⟩

/-- C5 amended: a bind failure on the local TCP port does not make
`start()` fail: `start()` returns with no socket bound and the server
running; the bind happens later in the accept-loop thread, whose failure
is caught and reported only through the logging callback, leaving the
running flag set. -/
theorem c5_bind_failure_logged_only (host : List Char) (port : Int) :
    ProxyServer.is_running (ProxyServer.start (mkServer host port)) = true ∧
    (ProxyServer.start (mkServer host port)).tcpBoundAddr = none ∧
    ProxyServer.is_running
        (serverStep (ProxyServer.start (mkServer host port))
          (ServerEvent.tcpBind false)) = true ∧
    (serverStep (ProxyServer.start (mkServer host port))
        (ServerEvent.tcpBind false)).logs =
      (ProxyServer.start (mkServer host port)).logs ++ [ServerLog.tcpServerError] ∧
    (serverStep (ProxyServer.start (mkServer host port))
        (ServerEvent.tcpBind false)).tcpBoundAddr = none := by
  exact ⟨rfl, rfl, rfl, rfl, rfl⟩

/-- C6 counterexample: after a started server performs both binds, the UDP
socket is bound to the wildcard address `0.0.0.0`, not to the loopback
localHost `127.0.0.1` it was constructed with. -/
theorem c6_counterexample :
    (serverStep (serverStep (ProxyServer.start (mkServer (("127.0.0.1").data) 8080))
        (ServerEvent.tcpBind true)) (ServerEvent.udpBind true)).udpBoundAddr =
      some ((("0.0.0.0").data), 8080) ∧
    (("0.0.0.0").data : List Char) ≠ ("127.0.0.1").data := by
  exact ⟨rfl, by decide⟩

/-- C6 amended: with localHost = 127.0.0.1, the TCP listener is bound to
the loopback address, but the UDP relay socket is bound to 0.0.0.0 (all
interfaces), so only the TCP endpoint is restricted to the local machine. -/
theorem c6_tcp_loopback_udp_wildcard (port : Int) :
    (serverStep (serverStep (ProxyServer.start (mkServer (("127.0.0.1").data) port))
        (ServerEvent.tcpBind true)) (ServerEvent.udpBind true)).tcpBoundAddr =
      some ((("127.0.0.1").data), port) ∧
    (serverStep (serverStep (ProxyServer.start (mkServer (("127.0.0.1").data) port))
        (ServerEvent.tcpBind true)) (ServerEvent.udpBind true)).udpBoundAddr =
      some ((("0.0.0.0").data), port) := by
  exact ⟨rfl, rfl⟩

/-- C10: `start()` sets the running flag before any socket is bound, and
`is_running()` stays true across every subsequent server event — including
a failed TCP bind, accept errors, and UDP errors — until `stop()` clears
it. -/
theorem c10_running_invariant (host : List Char) (port : Int)
    (evs : List ServerEvent) :
    ProxyServer.is_running
        (evs.foldl serverStep (ProxyServer.start (mkServer host port))) = true ∧
    (ProxyServer.start (mkServer host port)).tcpBoundAddr = none ∧
    (ProxyServer.start (mkServer host port)).udpBoundAddr = none ∧
    ∀ s : ProxyServerState, ProxyServer.is_running (ProxyServer.stop s) = false := by
  refine ⟨?_, rfl, rfl, fun s => rfl⟩
  rw [ProxyServer.is_running, foldl_serverStep_preserves_running]
  rfl

/-! ## Claim C8 -/

theorem findSock_append_some (a : UDPAddr) (l l2 : List (UDPAddr × Nat)) (k : Nat)
    (h : findSock a l = some k) : findSock a (l ++ l2) = some k := by
  induction l with
  | nil => simp [findSock] at h
  | cons q rest ih =>
    by_cases hq : q.1 = a
    · simp [findSock, hq] at h ⊢
      exact h
    · simp only [List.cons_append, findSock, if_neg hq] at h ⊢
      exact ih h

theorem findSock_append_new (a : UDPAddr) (l : List (UDPAddr × Nat)) (n : Nat)
    (h : findSock a l = none) : findSock a (l ++ [(a, n)]) = some n := by
  induction l with
  | nil => simp [findSock]
  | cons q rest ih =>
    by_cases hq : q.1 = a
    · simp [findSock, hq] at h
    · simp only [List.cons_append, findSock, if_neg hq] at h ⊢
      exact ih h

theorem findSock_none_iff (a : UDPAddr) (l : List (UDPAddr × Nat)) :
    findSock a l = none ↔ (l.filter (fun q => q.1 == a)).length = 0 := by
  induction l with
  | nil => simp [findSock]
  | cons q rest ih =>
    by_cases hq : q.1 = a
    · simp [findSock, hq, List.filter_cons]
    · simp [findSock, hq, List.filter_cons, ih]

theorem runUdp_append (c : ProxyConfig) (evs : List (UDPAddr × List Nat))
    (e : UDPAddr × List Nat) :
    runUdp c (evs ++ [e]) = udpRecvStep c (runUdp c evs) e := by
  simp [runUdp, List.foldl_append]

/-- C8 counterexample: an empty datagram from a fresh client address is
dropped by the receive loop (`if data:` in `UDPHandler.run`), so the first
datagram from a not-yet-seen address creates no session and nothing is
forwarded upstream. -/
theorem c8_counterexample :
    (runUdp cfg0 [(udpAddrA, [])]).mapping = [] ∧
    (runUdp cfg0 [(udpAddrA, [])]).sent = [] := by
  exact ⟨rfl, rfl⟩

/-- C8 amended: for every sequence of nonempty client datagrams, the first
datagram from a not-yet-seen address creates exactly one upstream session
(one socket and one responder) for that address, later datagrams from the
same address reuse it, and every datagram is forwarded unmodified to the
upstream host and port via that address's session socket. -/
theorem c8_nonempty_datagram_sessions (c : ProxyConfig)
    (evs : List (UDPAddr × List Nat)) (hne : ∀ e ∈ evs, e.2 ≠ []) :
    (∀ a : UDPAddr,
      ((runUdp c evs).mapping.filter (fun q => q.1 == a)).length =
        if evs.any (fun e => e.1 == a) then 1 else 0) ∧
    (runUdp c evs).responders = (runUdp c evs).mapping.map (fun q => (q.2, q.1)) ∧
    (runUdp c evs).sent = evs.map (fun e =>
      ((findSock e.1 (runUdp c evs).mapping).getD 0, e.2, (c.host, c.port))) := by
  induction evs using List.reverseRecOn with
  | nil => exact ⟨fun a => rfl, rfl, rfl⟩
  | append_singleton es e ih =>
    have hes : ∀ x ∈ es, x.2 ≠ [] := fun x hx => hne x (by simp [hx])
    have hd : e.2 ≠ [] := hne e (by simp)
    obtain ⟨hcount, hresp, hsent⟩ := ih hes
    have hstep : runUdp c (es ++ [e]) =
        handle_udp_packet c (runUdp c es) e.1 e.2 := by
      rw [runUdp_append]
      simp [udpRecvStep, hd]
    cases hfind : findSock e.1 (runUdp c es).mapping with
    | some k =>
      have hmap : (runUdp c (es ++ [e])).mapping = (runUdp c es).mapping := by
        rw [hstep]
        simp [handle_udp_packet, hfind]
      have hseen : es.any (fun x => x.1 == e.1) = true := by
        by_contra hcon
        have h0 := hcount e.1
        rw [if_neg (fun ht => hcon ht)] at h0
        rw [(findSock_none_iff e.1 (runUdp c es).mapping).mpr h0] at hfind
        exact Option.noConfusion hfind
      refine ⟨?_, ?_, ?_⟩
      · intro a
        rw [hmap, hcount a]
        by_cases ha : (es ++ [e]).any (fun x => x.1 == a) = true
        · rw [if_pos ha]
          rcases (List.any_eq_true).mp ha with ⟨x, hx, hxa⟩
          rcases List.mem_append.mp hx with hx1 | hx2
          · rw [if_pos ((List.any_eq_true).mpr ⟨x, hx1, hxa⟩)]
          · have hxe : x = e := by simpa using hx2
            subst hxe
            have hax : x.1 = a := by simpa using hxa
            subst hax
            rw [if_pos hseen]
        · rw [if_neg ha, if_neg (fun hh => ha ((List.any_eq_true).mpr
            (by rcases (List.any_eq_true).mp hh with ⟨x, hx, hxa⟩;
                exact ⟨x, List.mem_append_left _ hx, hxa⟩)))]
      · have hrespnew : (runUdp c (es ++ [e])).responders =
            (runUdp c es).responders := by
          rw [hstep]
          simp [handle_udp_packet, hfind]
        rw [hrespnew, hmap, hresp]
      · rw [hstep]
        simp only [handle_udp_packet, hfind]
        rw [List.map_append]
        simp only [List.map_cons, List.map_nil]
        rw [hsent, hfind]
    | none =>
      have hmap : (runUdp c (es ++ [e])).mapping =
          (runUdp c es).mapping ++ [(e.1, (runUdp c es).nextSock)] := by
        rw [hstep]
        simp [handle_udp_packet, hfind]
      have hcnt0 : ((runUdp c es).mapping.filter (fun q => q.1 == e.1)).length = 0 :=
        (findSock_none_iff e.1 (runUdp c es).mapping).mp hfind
      have hnew : findSock e.1 ((runUdp c es).mapping ++
          [(e.1, (runUdp c es).nextSock)]) = some (runUdp c es).nextSock :=
        findSock_append_new e.1 _ _ hfind
      have hstable : ∀ x ∈ es, findSock x.1 ((runUdp c es).mapping ++
          [(e.1, (runUdp c es).nextSock)]) = findSock x.1 (runUdp c es).mapping := by
        intro x hx
        have hseenx : es.any (fun y => y.1 == x.1) = true :=
          (List.any_eq_true).mpr ⟨x, hx, by simp⟩
        have hcx := hcount x.1
        rw [if_pos hseenx] at hcx
        cases hfx : findSock x.1 (runUdp c es).mapping with
        | none =>
          rw [(findSock_none_iff x.1 (runUdp c es).mapping).mp hfx] at hcx
          exact absurd hcx (by simp)
        | some kx => exact findSock_append_some x.1 _ _ kx hfx
      refine ⟨?_, ?_, ?_⟩
      · intro a
        rw [hmap, List.filter_append, List.length_append]
        by_cases hae : e.1 = a
        · subst hae
          rw [hcnt0]
          have hone : (([(e.1, (runUdp c es).nextSock)] :
              List (UDPAddr × Nat)).filter (fun q => q.1 == e.1)).length = 1 := by
            simp [List.filter_cons]
          rw [hone, if_pos ((List.any_eq_true).mpr
            ⟨e, List.mem_append_right _ (by simp), by simp⟩)]
        · have hz : (([(e.1, (runUdp c es).nextSock)] :
              List (UDPAddr × Nat)).filter (fun q => q.1 == a)).length = 0 := by
            simp [List.filter_cons, hae]
          rw [hz, Nat.add_zero, hcount a]
          have hany : (es ++ [e]).any (fun x => x.1 == a) =
              es.any (fun x => x.1 == a) := by
            simp [List.any_append, hae]
          rw [hany]
      · rw [hstep]
        simp only [handle_udp_packet, hfind]
        rw [List.map_append]
        simp only [List.map_cons, List.map_nil]
        rw [← hresp]
      · rw [hstep]
        simp only [handle_udp_packet, hfind]
        rw [List.map_append]
        simp only [List.map_cons, List.map_nil]
        rw [hsent]
        have hmaps : List.map (fun x => ((findSock x.1 ((runUdp c es).mapping ++
            [(e.1, (runUdp c es).nextSock)])).getD 0, x.2, (c.host, c.port))) es =
            List.map (fun x => ((findSock x.1 (runUdp c es).mapping).getD 0, x.2,
              (c.host, c.port))) es :=
          List.map_congr_left (fun x hx => by rw [hstable x hx])
        rw [hmaps]

/-- C8 witness: the amended theorem evaluated on a concrete datagram
sequence (two datagrams from one address, one from another). -/
theorem c8_witness :
    (udpEvs0.all (fun e => !(e.2.isEmpty)) = true) ∧
    ((runUdp cfg0 udpEvs0).mapping.filter (fun q => q.1 == udpAddrA)).length =
      (if udpEvs0.any (fun e => e.1 == udpAddrA) then 1 else 0) ∧
    (runUdp cfg0 udpEvs0).sent = udpEvs0.map (fun e =>
      ((findSock e.1 (runUdp cfg0 udpEvs0).mapping).getD 0, e.2,
        (cfg0.host, cfg0.port))) := by
  have h := c8_nonempty_datagram_sessions cfg0 udpEvs0 (by decide)
  exact ⟨by decide, h.1 udpAddrA, h.2.2⟩
